import Mathlib

/-!
# Verification of the deepflow agent stats collector (`src/agent/src/utils/stats.rs`)

Shallow embedding of the statistics-aggregation core: durations, the source
registry and its registration/dedup logic, the scheduling tick body, the
batch → wire-record encoding, and the UDP framing sink.  Machine integers are
modelled as `Nat`/`Int` with explicit reductions where the code narrows
(`now as u32` becomes `% 2^32`); the registry and the sink buffer are modelled
by explicit state passing.
-/

namespace DeepflowStats

/-- `std::time::Duration`: whole seconds plus a nanosecond remainder
(`nanos < 10^9` for every value the Rust type can hold; the fields are kept
unconstrained, all statements below only use normalized values).  `as_secs`
is the `secs` field. -/
structure Duration where
  secs : Nat
  nanos : Nat
deriving DecidableEq

/-- Rust `Duration` ordering is lexicographic on (secs, nanos). -/
def Duration.le (a b : Duration) : Bool :=
  Nat.blt a.secs b.secs || (a.secs == b.secs && Nat.ble a.nanos b.nanos)

/-- `const TICK_CYCLE: Duration = Duration::from_secs(1)` -/
def TICK_CYCLE : Duration := ⟨1, 0⟩

/-- `pub const STATS_MIN_INTERVAL: Duration = Duration::from_secs(10)` -/
def STATS_MIN_INTERVAL : Duration := ⟨10, 0⟩

/-- `const STATS_PREFIX: &'static str = "deepflow_agent"` -/
def STATS_PREFIX : String := "deepflow_agent"

/-- `CounterValue` from the `public::counter` crate (the crate itself is not
part of this repository; the spec describes counter values as
signed-integer / unsigned-integer / float, matching the three match arms of
`Batch::to_stats`). -/
inductive CounterValue where
  | signed (i : Int)
  | unsigned (u : Nat)
  | float (f : Float)

/-- A counter point: `(name, value)`.  (The Rust `Counter` tuple carries a
`CounterType` in the middle position that `to_stats` never reads; it is
omitted here.) -/
def Counter := String × CounterValue

/-- The `Countable` capability, modelled by its observable answers: whether
`closed()` returns true and what `get_counters()` returns. -/
structure Countable where
  closed : Bool
  counters : List Counter

/-- `pub enum StatsOption { Tag(&'static str, String), Interval(Duration) }` -/
inductive StatsOption where
  | tag (k : String) (v : String)
  | interval (d : Duration)

/-- A `Module` trait object, modelled by the answers of its three methods
`name()`, `tags()` and `options()`. -/
structure ModuleDecl where
  name : String
  tags : List StatsOption
  options : List StatsOption

/-- `struct Source`: `interval` is kept as its whole-second value (the code
only ever reads `interval.as_secs()`). -/
structure Source where
  module : String
  interval : Nat
  countable : Countable
  tags : List (String × String)
  skip : Int

/-- `impl PartialEq for Source`: identity is `(module, tags)`. -/
def sourceEq (a b : Source) : Bool :=
  decide (a.module = b.module) && decide (a.tags = b.tags)

/-- The tag loop of `register_countable` (lines 258–268): push a declared tag
only if its key is not already present; anything else (a duplicate key or an
`Interval` in the tag list) hits the `warn!` arm.  Returns the collected tag
list and the number of warnings. -/
def collectTags (decls : List StatsOption) : List (String × String) × Nat :=
  decls.foldl
    (fun acc o =>
      match o with
      | .tag k v =>
          if acc.1.any (fun p => decide (p.1 = k)) then (acc.1, acc.2 + 1)
          else (acc.1 ++ [(k, v)], acc.2)
      | .interval _ => (acc.1, acc.2 + 1))
    ([], 0)

/-- The option loop of `register_countable` (lines 269–283): an
`Interval(interval)` with `interval.as_secs() >= min_interval` replaces the
source interval by `interval.as_secs() / TICK_CYCLE.as_secs() *
TICK_CYCLE.as_secs()`; anything else hits the `warn!` arm.  Returns the
resulting interval (in whole seconds) and the number of warnings. -/
def applyOptions (minInterval : Nat) (decls : List StatsOption) : Nat × Nat :=
  decls.foldl
    (fun acc o =>
      match o with
      | .interval d =>
          if minInterval ≤ d.secs then
            (d.secs / TICK_CYCLE.secs * TICK_CYCLE.secs, acc.2)
          else (acc.1, acc.2 + 1)
      | .tag _ _ => (acc.1, acc.2 + 1))
    (minInterval, 0)

/-- Rust `v as i64` on a `u64` value: wrap into the signed 64-bit range —
the value itself below `2^63`, the value minus `2^64` otherwise. -/
def asI64 (v : Nat) : Int :=
  if v % 2 ^ 64 < 2 ^ 63 then (v % 2 ^ 64 : Nat) else (v % 2 ^ 64 : Nat) - 2 ^ 64

/-- The `Source` value built by `register_countable` (lines 250–286) from the
loaded minimum interval, the module declaration and the countable:
`interval` starts at the minimum, tags and options are folded in, and
`skip = (interval / min) as i64` — a wrapping u64-to-i64 cast — when the
interval exceeds the minimum. -/
def mkSource (minInterval : Nat) (m : ModuleDecl) (c : Countable) : Source :=
  let interval := (applyOptions minInterval m.options).1
  { module := m.name
    interval := interval
    countable := c
    tags := (collectTags m.tags).1
    skip := if minInterval < interval then asI64 (interval / minInterval) else 0 }

/-- Result of one `register_countable` call: the new registry plus the number
of warnings each `warn!` site emitted. -/
structure RegResult where
  sources : List Source
  dupWarns : Nat
  tagWarns : Nat
  optWarns : Nat

/-- `Collector::register_countable` acting on a registry snapshot (lines
287–299): `sources.retain(|s| !closed && !equals)` — warning for every
retained-out entry that equals the new source while not closed — then push
the new source. -/
def registerCountable (minInterval : Nat) (regs : List Source) (m : ModuleDecl)
    (c : Countable) : RegResult :=
  let src := mkSource minInterval m c
  { sources := regs.filter (fun s => !s.countable.closed && !sourceEq s src) ++ [src]
    dupWarns := (regs.filter (fun s => !s.countable.closed && sourceEq s src)).length
    tagWarns := (collectTags m.tags).2
    optWarns := (applyOptions minInterval m.options).2 }

/-- `Collector::with_min_interval` (lines 216–223): the stored
`min_interval` atomic in whole seconds — `TICK_CYCLE` when the requested
duration is at most one tick, otherwise
`(interval.as_secs() + TICK - 1) / TICK * TICK`. -/
def withMinInterval (interval : Duration) : Nat :=
  if Duration.le interval TICK_CYCLE then TICK_CYCLE.secs
  else (interval.secs + TICK_CYCLE.secs - 1) / TICK_CYCLE.secs * TICK_CYCLE.secs

/-- `Collector::set_min_interval` (lines 337–340): stores
`interval.as_secs()` unmodified. -/
def setMinInterval (interval : Duration) : Nat :=
  interval.secs

/-- The minimum-interval atomic after construction with `d0` followed by a
sequence of `set_min_interval` calls. -/
def minAfter (d0 : Duration) (ds : List Duration) : Nat :=
  ds.foldl (fun _ d => setMinInterval d) (withMinInterval d0)

/-- The spec's own rounding rule for the requested minimum interval
(comparison definition used to check `withMinInterval` against the spec's
words): a duration at most one tick cadence yields one tick; otherwise the
duration is rounded up to the next multiple of the tick cadence — with the
one-second tick, the multiples of the cadence are the durations with no
sub-second remainder, so rounding up means adding one second whenever the
nanosecond remainder is nonzero. -/
def specRoundedMinInterval (d : Duration) : Nat :=
  if Duration.le d TICK_CYCLE then TICK_CYCLE.secs
  else if d.nanos = 0 then d.secs else d.secs + 1

/-- The wire record `stats::Stats` (proto message), fields as built by
`Batch::to_stats`. -/
structure Stats where
  name : String
  timestamp : Nat
  tag_names : List String
  tag_values : List String
  metrics_float_names : List String
  metrics_float_values : List Float
  org_id : Nat
  team_id : Nat

/-- `pub struct Batch`: `timestamp` models the `u32` field (values < 2^32
wherever the scheduler builds one). -/
structure Batch where
  module : String
  hostname : String
  tags : List (String × String)
  points : List Counter
  timestamp : Nat

/-- The value coercions of `Batch::to_stats` lines 103–107: every counter
value becomes an `f64`. -/
def coerceValue : CounterValue → Float
  | .signed i => Float.ofInt i
  | .unsigned u => Float.ofNat u
  | .float f => f

/-- `str::replace(s, "-", "_")` for a single-character pattern: every `-`
becomes `_`. -/
def replaceDash (s : String) : String :=
  ⟨s.data.map (fun ch => if ch = '-' then '_' else ch)⟩

/-- The tag loop of `to_stats` (lines 88–95): one pass computing `has_host`
and pushing each tag's key and value onto the two parallel arrays. -/
def tagLoop (tags : List (String × String)) :
    Bool × List String × List String :=
  tags.foldl
    (fun acc t => (acc.1 || decide (t.1 = "host"), acc.2.1 ++ [t.1], acc.2.2 ++ [t.2]))
    (false, [], [])

/-- The point loop of `to_stats` (lines 101–108). -/
def pointLoop (points : List Counter) : List String × List Float :=
  points.foldl (fun acc p => (acc.1 ++ [p.1], acc.2 ++ [coerceValue p.2])) ([], [])

/-- `Batch::to_stats` (lines 82–120). -/
def Batch.to_stats (b : Batch) : Stats :=
  let t := tagLoop b.tags
  let m := pointLoop b.points
  { name := replaceDash (STATS_PREFIX ++ "_" ++ b.module)
    timestamp := b.timestamp
    tag_names := if t.1 then t.2.1 else t.2.1 ++ ["host"]
    tag_values := if t.1 then t.2.2 else t.2.2 ++ [b.hostname]
    metrics_float_names := m.1
    metrics_float_values := m.2
    org_id := 0
    team_id := 0 }

/-- What the tick body does to one live source (lines 424–447): decrement
`skip`; when it stays positive the source is neither pulled nor batched;
otherwise reset `skip = (interval.max(min) / min) as i64`, pull the
counters, and build a batch when they are nonempty. -/
structure Stepped where
  src : Source
  batch : Option Batch
  pulledNow : Bool

def tickSource (minLoaded now : Nat) (host : String) (s : Source) : Stepped :=
  if 0 < s.skip - 1 then
    { src := { s with skip := s.skip - 1 }, batch := none, pulledNow := false }
  else
    { src := { s with skip := asI64 (max s.interval minLoaded / minLoaded) }
      batch :=
        if s.countable.counters.isEmpty then none
        else some
          { module := s.module
            hostname := host
            tags := s.tags
            points := s.countable.counters
            timestamp := now % 2 ^ 32 }
      pulledNow := true }

/-- Result of one eligible tick: the updated registry, the batches handed to
the queue, and the sources whose counters were pulled this tick. -/
structure TickResult where
  sources : List Source
  batches : List Batch
  pulled : List Source

/-- The body run on one eligible tick of `Collector::start`'s loop (lines
420–447): closed sources are dropped first (`sources.retain(|s|
!s.countable.closed())`), then every remaining source is stepped. -/
def tick (minLoaded now : Nat) (host : String) (srcs : List Source) : TickResult :=
  { sources := (srcs.filter (fun s => !s.countable.closed)).map
      (fun s => (tickSource minLoaded now host s).src)
    batches := (srcs.filter (fun s => !s.countable.closed)).filterMap
      (fun s => (tickSource minLoaded now host s).batch)
    pulled := ((srcs.filter (fun s => !s.countable.closed)).filter
        (fun s => (tickSource minLoaded now host s).pulledNow)).map
      (fun s => (tickSource minLoaded now host s).src) }

/-- The eligibility test of the loop (line 410): the tick is skipped when
`now / min == last_run / min`. -/
def eligibleTick (minLoaded now lastRun : Nat) : Bool :=
  !decide (now / minLoaded = lastRun / minLoaded)

/-- Division guarded against a zero divisor, mirroring that Rust integer
division panics on a zero divisor: the division sites of
`register_countable` and the scheduling loop are safe iff this is `some`. -/
def checkedDiv (a b : Nat) : Option Nat :=
  if b = 0 then none else some (a / b)

/-- The droplet magic header: the initial content of `DropletSink`'s buffer
(line 472), `vec![0, 0, 0, 0, 2]`.  Bytes are modelled as `Nat`. -/
def DROPLET_HEADER : List Nat := [0, 0, 0, 0, 2]

/-- `DropletSink::emit` (lines 483–488) acting on the guarded buffer: the
metric line is modelled by its UTF-8 byte sequence.  `buffer.truncate(5)`
then `extend_from_slice`; returns (bytes handed to `send_to`, buffer left
behind). -/
def emit (buffer : List Nat) (metric : List Nat) : List Nat × List Nat :=
  let b := buffer.take 5 ++ metric
  (b, b)

/-- The sink buffer after a sequence of previous `emit` calls, starting from
the freshly constructed buffer. -/
def emitAll (metrics : List (List Nat)) : List Nat :=
  metrics.foldl (fun buf m => (emit buf m).2) DROPLET_HEADER

end DeepflowStats

namespace DeepflowStats

/-! ## Helper lemmas -/

lemma sourceEq_refl (s : Source) : sourceEq s s = true := by
  simp [sourceEq]

lemma le_tick_iff (s ns : Nat) :
    Duration.le ⟨s, ns⟩ TICK_CYCLE = true ↔ (s < 1 ∨ (s = 1 ∧ ns ≤ 0)) := by
  unfold Duration.le TICK_CYCLE
  simp only [Bool.or_eq_true, Bool.and_eq_true, Nat.blt_eq, Nat.ble_eq, beq_iff_eq]

lemma withMinInterval_eq_spec (d : Duration) :
    withMinInterval d = specRoundedMinInterval ⟨d.secs, 0⟩ := by
  obtain ⟨s, ns⟩ := d
  unfold withMinInterval specRoundedMinInterval
  by_cases h1 : Duration.le ⟨s, ns⟩ TICK_CYCLE = true
  · rw [if_pos h1]
    have hs := (le_tick_iff s ns).mp h1
    exact (if_pos ((le_tick_iff s 0).mpr (by omega))).symm
  · rw [if_neg h1]
    have hs : ¬ (s < 1 ∨ (s = 1 ∧ ns ≤ 0)) := fun h => h1 ((le_tick_iff s ns).mpr h)
    by_cases h2 : Duration.le ⟨s, 0⟩ TICK_CYCLE = true
    · rw [if_pos h2]
      have hs2 := (le_tick_iff s 0).mp h2
      show (s + 1 - 1) / 1 * 1 = 1
      omega
    · rw [if_neg h2]
      show (s + 1 - 1) / 1 * 1 = if (0 : Nat) = 0 then s else s + 1
      rw [if_pos rfl]
      omega

lemma one_le_withMinInterval (d : Duration) : 1 ≤ withMinInterval d := by
  obtain ⟨s, ns⟩ := d
  unfold withMinInterval
  by_cases h1 : Duration.le ⟨s, ns⟩ TICK_CYCLE = true
  · rw [if_pos h1]
    exact Nat.le_refl 1
  · rw [if_neg h1]
    have hs : ¬ (s < 1 ∨ (s = 1 ∧ ns ≤ 0)) := fun h => h1 ((le_tick_iff s ns).mpr h)
    show 1 ≤ (s + 1 - 1) / 1 * 1
    omega

/-! ## C4: rounding of the constructor's requested minimum interval -/

/-- C4 counterexample: requesting 1.5 s — a duration that is more than one
tick and not a whole multiple of the tick cadence — stores 1 s, while the
claim's round-up-to-next-multiple rule demands 2 s. -/
theorem c4_counterexample :
    withMinInterval ⟨1, 500000000⟩ = 1 ∧ specRoundedMinInterval ⟨1, 500000000⟩ = 2 := by
  constructor <;> decide

/-- C4 (amended): for every duration passed to `with_min_interval`, a
duration at most one tick cadence stores one tick cadence; in general the
stored minimum equals the spec's round-up rule applied to the duration
truncated to whole seconds (the sub-second part is discarded before
rounding), and it is always a positive multiple of the tick cadence. -/
theorem c4_with_min_interval_rounding (d : Duration) :
    (Duration.le d TICK_CYCLE = true → withMinInterval d = TICK_CYCLE.secs) ∧
    withMinInterval d = specRoundedMinInterval ⟨d.secs, 0⟩ ∧
    TICK_CYCLE.secs ∣ withMinInterval d ∧
    TICK_CYCLE.secs ≤ withMinInterval d := by
  refine ⟨?_, withMinInterval_eq_spec d, ?_, one_le_withMinInterval d⟩
  · intro h
    unfold withMinInterval
    rw [h]
    simp
  · exact one_dvd _

/-! ## C5: the minimum-interval invariant over set_min_interval -/

/-- C5 counterexample: a `set_min_interval` call with a sub-second duration
stores 0, breaking the claimed "at least one tick" invariant. -/
theorem c5_counterexample :
    minAfter ⟨10, 0⟩ [⟨0, 500000000⟩] = 0 ∧
    ¬ TICK_CYCLE.secs ≤ minAfter ⟨10, 0⟩ [⟨0, 500000000⟩] := by
  constructor <;> decide

/-- C5 (amended): after construction the stored minimum interval is a
positive multiple of the tick cadence, and the invariant is preserved by any
sequence of `set_min_interval` calls whose arguments are each at least one
second (`set_min_interval` stores the whole-second value unmodified, so a
sub-second argument would store zero). -/
theorem c5_min_interval_invariant (d0 : Duration) (ds : List Duration)
    (h : ∀ d ∈ ds, 1 ≤ d.secs) :
    TICK_CYCLE.secs ≤ minAfter d0 ds ∧ TICK_CYCLE.secs ∣ minAfter d0 ds := by
  refine ⟨?_, one_dvd _⟩
  show 1 ≤ minAfter d0 ds
  unfold minAfter
  have general : ∀ (ds : List Duration) (init : Nat), 1 ≤ init →
      (∀ d ∈ ds, 1 ≤ d.secs) →
      1 ≤ ds.foldl (fun _ d => setMinInterval d) init := by
    intro ds
    induction ds with
    | nil => intro init h1 _; exact h1
    | cons d ds ih =>
      intro init _ hall
      rw [List.foldl_cons]
      exact ih (setMinInterval d) (hall d (List.mem_cons_self d ds))
        (fun x hx => hall x (List.mem_cons_of_mem d hx))
  exact general ds (withMinInterval d0) (one_le_withMinInterval d0) h

/-- C5 witness: a concrete run — construction at 10 s followed by
`set_min_interval(20 s)` — keeps the invariant. -/
theorem c5_witness :
    TICK_CYCLE.secs ≤ minAfter ⟨10, 0⟩ [⟨20, 0⟩] ∧
    TICK_CYCLE.secs ∣ minAfter ⟨10, 0⟩ [⟨20, 0⟩] :=
  c5_min_interval_invariant ⟨10, 0⟩ [⟨20, 0⟩] (by decide)


/-! ## C9: UDP framing sink emission -/

lemma emitAll_take (prev : List (List Nat)) : (emitAll prev).take 5 = DROPLET_HEADER := by
  have general : ∀ (ms : List (List Nat)) (buf : List Nat), buf.take 5 = DROPLET_HEADER →
      (ms.foldl (fun buf m => (emit buf m).2) buf).take 5 = DROPLET_HEADER := by
    intro ms
    induction ms with
    | nil => intro buf h; exact h
    | cons m ms ih =>
      intro buf h
      rw [List.foldl_cons]
      apply ih
      show (buf.take 5 ++ m).take 5 = DROPLET_HEADER
      rw [h]
      exact List.take_left DROPLET_HEADER m
  exact general prev DROPLET_HEADER rfl

/-- C9: whatever was emitted before on the same sink, the bytes handed to
`send_to` for a metric line are exactly the five droplet-header bytes
followed by the bytes of that line — nothing from a previous emission leaks into
the datagram. -/
theorem c9_emit_datagram (prev : List (List Nat)) (metric : List Nat) :
    (emit (emitAll prev) metric).1 = DROPLET_HEADER ++ metric := by
  show (emitAll prev).take 5 ++ metric = DROPLET_HEADER ++ metric
  rw [emitAll_take]

/-! ## C10: division-by-zero safety of the interval arithmetic -/

/-- C10: under the precondition that the loaded minimum interval is at least
one second, every division site is well defined — the eligibility ratios
`now / min` and `last_run / min`, the skip reset divisor `max(interval, min)
/ min`, and the skip computation of `register_countable` all divide by
`min ≠ 0`; and `set_min_interval` does not re-establish the precondition: it
stores the whole-second value of its argument unmodified, so a sub-second
argument stores zero. -/
theorem c10_division_safety (minLoaded now lastRun iv : Nat) (d : Duration)
    (h : 1 ≤ minLoaded) :
    (checkedDiv now minLoaded).isSome = true ∧
    (checkedDiv lastRun minLoaded).isSome = true ∧
    checkedDiv (max iv minLoaded) minLoaded = some (max iv minLoaded / minLoaded) ∧
    (∀ (m : ModuleDecl) (c : Countable),
      (mkSource minLoaded m c).skip =
        if minLoaded < (applyOptions minLoaded m.options).1 then
          asI64 ((checkedDiv (applyOptions minLoaded m.options).1 minLoaded).getD 0)
        else 0) ∧
    setMinInterval d = d.secs ∧
    setMinInterval ⟨0, 500000000⟩ = 0 := by
  have hne : minLoaded ≠ 0 := by omega
  refine ⟨?_, ?_, ?_, ?_, rfl, rfl⟩
  · simp [checkedDiv, hne]
  · simp [checkedDiv, hne]
  · simp [checkedDiv, hne]
  · intro m c
    simp [mkSource, checkedDiv, hne]

/-- C10 witness: the safety statement at `min = 10`. -/
theorem c10_witness : setMinInterval ⟨0, 500000000⟩ = 0 :=
  (c10_division_safety 10 25 7 30 ⟨3, 0⟩ (by decide)).2.2.2.2.2


/-! ## C6 and C7: the Batch → wire-record encoding -/

lemma tagLoop_go (ts : List (String × String)) :
    ∀ (b : Bool) (ns vs : List String),
    ts.foldl (fun acc t => (acc.1 || decide (t.1 = "host"), acc.2.1 ++ [t.1], acc.2.2 ++ [t.2]))
        (b, ns, vs)
      = (b || ts.any (fun t => decide (t.1 = "host")),
         ns ++ ts.map Prod.fst, vs ++ ts.map Prod.snd) := by
  induction ts with
  | nil => intro b ns vs; simp
  | cons t ts ih =>
    intro b ns vs
    rw [List.foldl_cons, ih]
    simp [Bool.or_assoc]

lemma tagLoop_eq (ts : List (String × String)) :
    tagLoop ts = (ts.any (fun t => decide (t.1 = "host")),
      ts.map Prod.fst, ts.map Prod.snd) := by
  have h := tagLoop_go ts false [] []
  simpa [tagLoop] using h

lemma pointLoop_go (ps : List Counter) :
    ∀ (ns : List String) (vs : List Float),
    ps.foldl (fun acc p => (acc.1 ++ [p.1], acc.2 ++ [coerceValue p.2])) (ns, vs)
      = (ns ++ ps.map Prod.fst, vs ++ ps.map (fun p => coerceValue p.2)) := by
  induction ps with
  | nil => intro ns vs; simp
  | cons p ps ih =>
    intro ns vs
    rw [List.foldl_cons, ih]
    simp

lemma pointLoop_eq (ps : List Counter) :
    pointLoop ps = (ps.map Prod.fst, ps.map (fun p => coerceValue p.2)) := by
  have h := pointLoop_go ps [] []
  simpa [pointLoop] using h

lemma replaceDash_append (s t : String) :
    replaceDash (s ++ t) = replaceDash s ++ replaceDash t := by
  obtain ⟨a⟩ := s
  obtain ⟨b⟩ := t
  show replaceDash ⟨a ++ b⟩ = _
  simp only [replaceDash, List.map_append]
  rfl

/-- C6: the wire record has parallel tag-name/tag-value arrays in batch tag
order; when no batch tag has key "host" both arrays carry one extra element,
the pair ("host", batch hostname) appended at the end; when a "host" tag is
present the arrays have exactly the length of the tag list. -/
theorem c6_host_tag_injection (b : Batch) :
    (Batch.to_stats b).tag_names.length = (Batch.to_stats b).tag_values.length ∧
    ((b.tags.any (fun t => decide (t.1 = "host"))) = false →
      (Batch.to_stats b).tag_names = b.tags.map Prod.fst ++ ["host"] ∧
      (Batch.to_stats b).tag_values = b.tags.map Prod.snd ++ [b.hostname] ∧
      (Batch.to_stats b).tag_names.length = b.tags.length + 1) ∧
    ((b.tags.any (fun t => decide (t.1 = "host"))) = true →
      (Batch.to_stats b).tag_names = b.tags.map Prod.fst ∧
      (Batch.to_stats b).tag_values = b.tags.map Prod.snd ∧
      (Batch.to_stats b).tag_names.length = b.tags.length) := by
  have ht := tagLoop_eq b.tags
  rcases hany : b.tags.any (fun t => decide (t.1 = "host")) with _ | _
  · refine ⟨?_, fun _ => ⟨?_, ?_, ?_⟩, fun h => absurd h (by decide)⟩ <;>
      simp [Batch.to_stats, ht, hany]
  · refine ⟨?_, fun h => absurd h (by decide), fun _ => ⟨?_, ?_, ?_⟩⟩ <;>
      simp [Batch.to_stats, ht, hany]

/-- C7: the wire name is the fixed prefix, an underscore and the module name
with every hyphen replaced by an underscore; counter values are coerced to
64-bit floats in point order into parallel name/value arrays; the timestamp
is the batch timestamp widened; org_id and team_id are 0. -/
theorem c7_wire_record (b : Batch) :
    (Batch.to_stats b).name = STATS_PREFIX ++ "_" ++ replaceDash b.module ∧
    (Batch.to_stats b).metrics_float_names = b.points.map Prod.fst ∧
    (Batch.to_stats b).metrics_float_values = b.points.map (fun p => coerceValue p.2) ∧
    (Batch.to_stats b).metrics_float_names.length =
      (Batch.to_stats b).metrics_float_values.length ∧
    (Batch.to_stats b).timestamp = b.timestamp ∧
    (Batch.to_stats b).org_id = 0 ∧
    (Batch.to_stats b).team_id = 0 := by
  have hp := pointLoop_eq b.points
  refine ⟨?_, ?_, ?_, ?_, rfl, rfl, rfl⟩
  · show replaceDash (STATS_PREFIX ++ "_" ++ b.module) = _
    rw [replaceDash_append, replaceDash_append]
    have h1 : replaceDash STATS_PREFIX = STATS_PREFIX := by decide
    have h2 : replaceDash "_" = "_" := by decide
    rw [h1, h2]
  · simp [Batch.to_stats, hp]
  · simp [Batch.to_stats, hp]
  · simp [Batch.to_stats, hp]


/-! ## C1: registration dedup and closed-entry pruning -/

/-- C1 counterexample: with an already-closed entry of identity
`("queue", [("index", "0")])` in the registry, registering the same identity
removes it but emits no duplicate-source warning — the `warn!` only fires for
a displaced entry that is not closed, so "after emitting a warning,
regardless of whether the old entry had already signaled closure" fails. -/
theorem c1_counterexample :
    (sourceEq
        { module := "queue", interval := 10, countable := ⟨true, []⟩,
          tags := [("index", "0")], skip := 0 }
        (mkSource 10 ⟨"queue", [.tag "index" "0"], []⟩ ⟨false, []⟩) = true) ∧
    ((registerCountable 10
        [{ module := "queue", interval := 10, countable := ⟨true, []⟩,
           tags := [("index", "0")], skip := 0 }]
        ⟨"queue", [.tag "index" "0"], []⟩ ⟨false, []⟩).dupWarns = 0) := by
  constructor <;> decide

/-- C1 (amended): for every registry state, `register_countable` removes
every entry whose identity equals the new source and every closed entry in
the same pass, appends the new source at the end, and afterwards exactly one
entry with that identity is present; the duplicate warning is emitted
exactly when some displaced entry of equal identity had not signaled
closure. -/
theorem c1_register_dedup (minInterval : Nat) (regs : List Source) (m : ModuleDecl)
    (c : Countable) :
    ((registerCountable minInterval regs m c).sources.getLast?
        = some (mkSource minInterval m c)) ∧
    (∀ s ∈ (registerCountable minInterval regs m c).sources.dropLast,
        s.countable.closed = false ∧ sourceEq s (mkSource minInterval m c) = false ∧
        s ∈ regs) ∧
    (((registerCountable minInterval regs m c).sources.filter
        (fun s => sourceEq s (mkSource minInterval m c))).length = 1) ∧
    ((registerCountable minInterval regs m c).dupWarns ≠ 0 ↔
        ∃ s ∈ regs, s.countable.closed = false ∧
          sourceEq s (mkSource minInterval m c) = true) := by
  refine ⟨?_, ?_, ?_, ?_⟩
  · show (_ ++ [mkSource minInterval m c]).getLast? = _
    exact List.getLast?_concat _
  · show ∀ s ∈ (_ ++ [mkSource minInterval m c]).dropLast, _
    rw [List.dropLast_concat]
    intro s hs
    have h := List.mem_filter.mp hs
    have hb := h.2
    simp only [Bool.and_eq_true, Bool.not_eq_true'] at hb
    exact ⟨hb.1, hb.2, h.1⟩
  · show ((_ ++ [mkSource minInterval m c]).filter _).length = 1
    rw [List.filter_append]
    have hnil : (List.filter (fun s => sourceEq s (mkSource minInterval m c))
        (regs.filter (fun s => !s.countable.closed &&
          !sourceEq s (mkSource minInterval m c)))) = [] := by
      rw [List.filter_eq_nil_iff]
      intro a ha
      have hb := (List.mem_filter.mp ha).2
      simp only [Bool.and_eq_true, Bool.not_eq_true'] at hb
      simp [hb.2]
    rw [hnil]
    simp [sourceEq_refl]
  · show (List.filter _ regs).length ≠ 0 ↔ _
    rw [Ne, List.length_eq_zero, ← Ne]
    constructor
    · intro hne
      rcases List.exists_mem_of_ne_nil _ hne with ⟨a, ha⟩
      have h := List.mem_filter.mp ha
      have hb := h.2
      simp only [Bool.and_eq_true, Bool.not_eq_true'] at hb
      exact ⟨a, h.1, hb.1, hb.2⟩
    · rintro ⟨a, ha, hc, he⟩ hnil
      have : a ∈ List.filter (fun s => !s.countable.closed &&
          sourceEq s (mkSource minInterval m c)) regs :=
        List.mem_filter.mpr ⟨ha, by simp [hc, he]⟩
      rw [hnil] at this
      exact absurd this (List.not_mem_nil a)

/-! ## C3: interval override acceptance and skip computation -/

/-- C3 counterexample: with minimum interval 1 s and an accepted override of
u64::MAX seconds, the program stores `skip = (u64::MAX / 1) as i64 = -1` —
the wrapping cast of stats.rs:285 — while the claim demands the mathematical
floor `u64::MAX`, so the skip countdown does not equal
floor(interval / minimum_interval) at this input. -/
theorem c3_counterexample :
    ((mkSource 1 ⟨"m", [], [.interval ⟨18446744073709551615, 0⟩]⟩ ⟨false, []⟩).skip
        = -1) ∧
    ((mkSource 1 ⟨"m", [], [.interval ⟨18446744073709551615, 0⟩]⟩ ⟨false, []⟩).interval
        / 1 = 18446744073709551615) ∧
    ((-1 : Int) ≠ Int.ofNat 18446744073709551615) := by
  refine ⟨?_, ?_, ?_⟩ <;> decide

/-- C3 (amended): an interval override declared last is accepted exactly
when its whole-second value is at least the loaded minimum interval, in
which case the interval becomes the override rounded down to a multiple of
the tick cadence with no new warning; otherwise the interval is unchanged
and a warning is counted; the skip countdown of the built source is the
wrapping 64-bit-signed cast of `interval / min` when the resulting interval
exceeds the minimum and 0 otherwise — equal to the mathematical floor
whenever the quotient is below `2^63`. -/
theorem c3_interval_override (minInterval : Nat) (opts : List StatsOption)
    (d : Duration) (m : ModuleDecl) (c : Countable) :
    (minInterval ≤ d.secs →
      (applyOptions minInterval (opts ++ [.interval d])).1
          = d.secs / TICK_CYCLE.secs * TICK_CYCLE.secs ∧
      TICK_CYCLE.secs ∣ (applyOptions minInterval (opts ++ [.interval d])).1 ∧
      (applyOptions minInterval (opts ++ [.interval d])).2
          = (applyOptions minInterval opts).2) ∧
    (¬ minInterval ≤ d.secs →
      applyOptions minInterval (opts ++ [.interval d])
          = ((applyOptions minInterval opts).1, (applyOptions minInterval opts).2 + 1)) ∧
    ((mkSource minInterval m c).skip =
      if minInterval < (applyOptions minInterval m.options).1 then
        asI64 ((applyOptions minInterval m.options).1 / minInterval)
      else 0) ∧
    ((applyOptions minInterval m.options).1 / minInterval < 2 ^ 63 →
      (mkSource minInterval m c).skip =
        if minInterval < (applyOptions minInterval m.options).1 then
          Int.ofNat ((applyOptions minInterval m.options).1 / minInterval)
        else 0) := by
  have happ : applyOptions minInterval (opts ++ [.interval d])
      = (if minInterval ≤ d.secs then
          (d.secs / TICK_CYCLE.secs * TICK_CYCLE.secs, (applyOptions minInterval opts).2)
        else ((applyOptions minInterval opts).1, (applyOptions minInterval opts).2 + 1)) := by
    unfold applyOptions
    rw [List.foldl_append]
    show (if minInterval ≤ d.secs then _ else _) = _
    split <;> rfl
  refine ⟨?_, ?_, rfl, ?_⟩
  · intro h
    rw [happ, if_pos h]
    refine ⟨rfl, ?_, rfl⟩
    show TICK_CYCLE.secs ∣ d.secs / TICK_CYCLE.secs * TICK_CYCLE.secs
    exact dvd_mul_left _ _
  · intro h
    rw [happ, if_neg h]
  · intro hq
    have hwrap : asI64 ((applyOptions minInterval m.options).1 / minInterval)
        = Int.ofNat ((applyOptions minInterval m.options).1 / minInterval) := by
      unfold asI64
      rw [Nat.mod_eq_of_lt (by omega)]
      rw [if_pos hq]
      rfl
    show (if minInterval < (applyOptions minInterval m.options).1 then
        asI64 ((applyOptions minInterval m.options).1 / minInterval)
      else 0) = _
    rw [hwrap]

/-! ## C8: closed sources are pruned before sampling on each eligible tick -/

lemma tickSource_countable (minLoaded now : Nat) (host : String) (s : Source) :
    (tickSource minLoaded now host s).src.countable = s.countable := by
  unfold tickSource
  split <;> rfl

lemma tickSource_batch (minLoaded now : Nat) (host : String) (s : Source) (b : Batch)
    (hb : (tickSource minLoaded now host s).batch = some b) :
    b.module = s.module ∧ b.tags = s.tags ∧ b.points = s.countable.counters := by
  unfold tickSource at hb
  split at hb
  · exact absurd hb (by simp)
  · split at hb
    · exact absurd hb (by simp)
    · have := Option.some.inj hb
      subst this
      exact ⟨rfl, rfl, rfl⟩

/-- C8: on an eligible tick every source whose countable reports closed is
dropped from the registry before sampling, is never pulled and produces no
batch; every surviving or pulled source is live, and every batch comes from
a live source of the incoming registry. -/
theorem c8_closed_pruning (minLoaded now : Nat) (host : String) (srcs : List Source) :
    (∀ s ∈ (tick minLoaded now host srcs).sources, s.countable.closed = false) ∧
    (∀ p ∈ (tick minLoaded now host srcs).pulled, p.countable.closed = false) ∧
    (∀ s ∈ srcs, s.countable.closed = true →
        s ∉ (tick minLoaded now host srcs).sources ∧
        s ∉ (tick minLoaded now host srcs).pulled) ∧
    (∀ b ∈ (tick minLoaded now host srcs).batches, ∃ s ∈ srcs,
        s.countable.closed = false ∧ b.module = s.module ∧ b.tags = s.tags ∧
        b.points = s.countable.counters) := by
  have halive : ∀ s ∈ srcs.filter (fun s => !s.countable.closed),
      s.countable.closed = false := by
    intro s hs
    have h := (List.mem_filter.mp hs).2
    simpa using h
  have hsources : ∀ s ∈ (tick minLoaded now host srcs).sources,
      s.countable.closed = false := by
    intro s hs
    unfold tick at hs
    simp only [List.mem_map] at hs
    rcases hs with ⟨a, ha, rfl⟩
    rw [tickSource_countable]
    exact halive a ha
  have hpulled : ∀ p ∈ (tick minLoaded now host srcs).pulled,
      p.countable.closed = false := by
    intro p hp
    unfold tick at hp
    simp only [List.mem_map] at hp
    rcases hp with ⟨a, ha, rfl⟩
    rw [tickSource_countable]
    exact halive a (List.mem_filter.mp ha).1
  refine ⟨hsources, hpulled, ?_, ?_⟩
  · intro s _ hc
    constructor
    · intro hmem
      rw [hsources s hmem] at hc
      exact Bool.noConfusion hc
    · intro hmem
      rw [hpulled s hmem] at hc
      exact Bool.noConfusion hc
  · intro b hb
    unfold tick at hb
    simp only [List.mem_filterMap] at hb
    rcases hb with ⟨a, ha, hsome⟩
    have hmem := (List.mem_filter.mp ha).1
    have hcl := halive a ha
    have hf := tickSource_batch minLoaded now host a b hsome
    exact ⟨a, hmem, hcl, hf.1, hf.2.1, hf.2.2⟩

/-! ## C2: a 30 s override under a 10 s minimum samples on the 3rd tick -/

/-- C2: with minimum interval 10 s, a module declaring a 30 s interval
override is registered with skip countdown 3, and in the scheduling loop its
counters are first pulled on the 3rd eligible tick after registration, not
on the 1st or the 2nd. -/
theorem c2_skip_scheduling (name : String) (tds : List StatsOption) (c : Countable)
    (hc : c.closed = false) (n1 n2 n3 : Nat) (host : String) :
    (mkSource 10 ⟨name, tds, [.interval ⟨30, 0⟩]⟩ c).skip = 3 ∧
    (registerCountable 10 [] ⟨name, tds, [.interval ⟨30, 0⟩]⟩ c).sources
        = [mkSource 10 ⟨name, tds, [.interval ⟨30, 0⟩]⟩ c] ∧
    (tick 10 n1 host
        (registerCountable 10 [] ⟨name, tds, [.interval ⟨30, 0⟩]⟩ c).sources).pulled = [] ∧
    (tick 10 n2 host
        (tick 10 n1 host
          (registerCountable 10 [] ⟨name, tds, [.interval ⟨30, 0⟩]⟩ c).sources).sources).pulled
        = [] ∧
    ((tick 10 n3 host
        (tick 10 n2 host
          (tick 10 n1 host
            (registerCountable 10 [] ⟨name, tds, [.interval ⟨30, 0⟩]⟩ c).sources).sources).sources).pulled).map
        Source.module = [name] := by
  have hskip : (mkSource 10 ⟨name, tds, [.interval ⟨30, 0⟩]⟩ c).skip = 3 := by
    unfold mkSource applyOptions
    simp [TICK_CYCLE]
    decide
  have three : ∀ (s : Source), s.countable.closed = false → s.skip = 3 →
      ∀ (m n1 n2 n3 : Nat) (host : String),
      (tick m n1 host [s]).pulled = [] ∧
      (tick m n2 host (tick m n1 host [s]).sources).pulled = [] ∧
      ((tick m n3 host
          (tick m n2 host (tick m n1 host [s]).sources).sources).pulled).map Source.module
        = [s.module] := by
    rintro ⟨mod, iv, cnt, tags, skip⟩ hc2 hs2 m m1 m2 m3 h2
    simp only at hc2 hs2
    subst hs2
    refine ⟨?_, ?_, ?_⟩ <;> simp [tick, tickSource, hc2]
  have hcc : (mkSource 10 ⟨name, tds, [.interval ⟨30, 0⟩]⟩ c).countable.closed = false := by
    simpa [mkSource] using hc
  have hreg : (registerCountable 10 [] ⟨name, tds, [.interval ⟨30, 0⟩]⟩ c).sources
      = [mkSource 10 ⟨name, tds, [.interval ⟨30, 0⟩]⟩ c] := rfl
  have hmod : (mkSource 10 ⟨name, tds, [.interval ⟨30, 0⟩]⟩ c).module = name := rfl
  obtain ⟨p1, p2, p3⟩ :=
    three (mkSource 10 ⟨name, tds, [.interval ⟨30, 0⟩]⟩ c) hcc hskip 10 n1 n2 n3 host
  rw [hreg]
  exact ⟨hskip, rfl, p1, p2, by rw [p3, hmod]⟩

/-- C2 witness: a concrete module named "q" with a 30 s override, registered
under a 10 s minimum, is first pulled on the third eligible tick. -/
theorem c2_witness :
    ((tick 10 2 ""
        (tick 10 1 ""
          (tick 10 0 ""
            (registerCountable 10 [] ⟨"q", [], [.interval ⟨30, 0⟩]⟩
              ⟨false, []⟩).sources).sources).sources).pulled).map Source.module = ["q"] :=
  (c2_skip_scheduling "q" [] ⟨false, []⟩ rfl 0 1 2 "").2.2.2.2

end DeepflowStats
